import Mathlib

/-!
Shallow embedding of the multi-conversation streaming dispatcher
(`Agent` class, `src/unnamed/part_000`, lines 275-449).

The TypeScript source keeps, per `Agent` instance, a record
`messagesHandlers : Record<string, Array<handler>>` mapping a thread id
(uuid) to the ordered array of subscribed handler callbacks, and a
module-global record `sentMessages : Record<string, boolean>` used to
suppress duplicate delivery, keyed by the string interpolation of a
message's id.  `messageReceived` drains the agent's stream of cumulative
snapshot chunks; for each message of each chunk whose key is not yet in
`sentMessages` it first broadcasts the message to the thread's handlers
(`_sendMessageToClients`) and then marks the key as sent.

We model a handler (sink) by its reference identity, as a natural number;
the JavaScript record becomes an association list keyed by the thread id
string; assignment to a record key replaces the first matching entry or
appends a fresh one.  Delivery is observed through a log of
(sink, message) invocation events.  A handler is an external callback
that may throw; whether a given sink throws is a parameter
`throws : Sink -> Bool` of the semantics, and a throw aborts the
enclosing `forEach` loops exactly as a JavaScript exception would.
-/

namespace Dispatch

/-- A streamed message: `id` is assigned by the upstream agent and may be
absent (`undefined` in TypeScript); `content` stands for the payload. -/
structure Message where
  id : Option String
  content : String
deriving DecidableEq, Repr

/-- A sink (handler callback), identified by its reference identity: the
source compares handlers with `!==` and never inspects them otherwise. -/
abbrev Sink := Nat

/-- The per-instance field `messagesHandlers`: a record from thread id to
the ordered array of subscribed handlers. -/
abbrev HandlerMap := List (String × List Sink)

/-- Key used in the `sentMessages` record: the source indexes it with the
template-literal string interpolation of `msg.id`, which renders an
absent (undefined) id as the string "undefined". -/
def idKey (m : Message) : String :=
  match m.id with
  | some s => s
  | none => "undefined"

/-- Record read `messagesHandlers[uuid]`: the value at the first entry
with a matching key, or `none` when the key is absent. -/
def lookupHandlers : HandlerMap → String → Option (List Sink)
  | [], _ => none
  | (k, v) :: rest, uuid => if k = uuid then some v else lookupHandlers rest uuid

/-- Record write `messagesHandlers[uuid] = hs`: replace the first entry
with a matching key, or append a fresh entry when the key is absent. -/
def setHandlers : HandlerMap → String → List Sink → HandlerMap
  | [], uuid, hs => [(uuid, hs)]
  | (k, v) :: rest, uuid, hs =>
      if k = uuid then (uuid, hs) :: rest else (k, v) :: setHandlers rest uuid hs

/-- Source `registerNewMessageHandler(handler, uuid)`:
`messagesHandlers[uuid] = messagesHandlers[uuid] || []` followed by
`messagesHandlers[uuid].push(handler)`. -/
def registerNewMessageHandler (m : HandlerMap) (handler : Sink) (uuid : String) :
    HandlerMap :=
  setHandlers m uuid ((lookupHandlers m uuid).getD [] ++ [handler])

/-- Source `unregisterNewMessageHandler(uuid, handler)`: returns
unchanged when `messagesHandlers[uuid]` is absent, otherwise replaces the
list by `filter((h) => h !== handler)`. -/
def unregisterNewMessageHandler (m : HandlerMap) (uuid : String) (handler : Sink) :
    HandlerMap :=
  match lookupHandlers m uuid with
  | none => m
  | some hs => setHandlers m uuid (hs.filter (fun h => h ≠ handler))

/-- The module-global mutable state of the dispatcher, together with the
observation log: `sentMessages` is the list of keys marked `true` in the
global record (in marking order), and `log` records every handler
invocation `(sink, message)` in the order the invocations happen. -/
structure ProcState where
  sentMessages : List String
  log : List (Sink × Message)
deriving DecidableEq, Repr

/-- Invoke the handlers of one broadcast in array order, as
`handlers.forEach((handler) => handler(message))` does.  A throwing
handler is still invoked (logged) but aborts the loop; the Bool is
`false` when an exception escaped. -/
def runHandlers (throws : Sink → Bool) : List Sink → Message →
    List (Sink × Message) × Bool
  | [], _ => ([], true)
  | h :: rest, msg =>
      if throws h then ([(h, msg)], false)
      else
        let r := runHandlers throws rest msg
        ((h, msg) :: r.1, r.2)

/-- Source `_sendMessageToClients(uuid, message)`: return without effect
when `messagesHandlers[uuid]` is absent, otherwise `forEach` the handler
array with the message. -/
def sendMessageToClients (throws : Sink → Bool) (handlers : HandlerMap)
    (uuid : String) (message : Message) : List (Sink × Message) × Bool :=
  match lookupHandlers handlers uuid with
  | none => ([], true)
  | some hs => runHandlers throws hs message

/-- The `chunk.messages.forEach` body of `messageReceived`, over the
messages of one chunk: a message whose key is already in `sentMessages`
is skipped; otherwise it is broadcast and then its key is marked sent.
An exception from a sink aborts the remaining iterations (Bool `false`),
leaving the failed message unmarked. -/
def processMessages (throws : Sink → Bool) (handlers : HandlerMap)
    (ps : ProcState) (thread_id : String) :
    List Message → ProcState × Bool
  | [] => (ps, true)
  | msg :: rest =>
      if idKey msg ∈ ps.sentMessages then
        processMessages throws handlers ps thread_id rest
      else
        let d := sendMessageToClients throws handlers thread_id msg
        if d.2 then
          processMessages throws handlers
            ⟨ps.sentMessages ++ [idKey msg], ps.log ++ d.1⟩ thread_id rest
        else
          (⟨ps.sentMessages, ps.log ++ d.1⟩, false)

/-- One streamed chunk: `none` models a chunk whose `messages` field is
absent (the `if (chunk.messages)` guard), `some msgs` a cumulative
snapshot carrying the listed messages in order. -/
abbrev Chunk := Option (List Message)

/-- Processing of one chunk of the `for await` loop. -/
def processChunk (throws : Sink → Bool) (handlers : HandlerMap)
    (ps : ProcState) (thread_id : String) : Chunk → ProcState × Bool
  | none => (ps, true)
  | some msgs => processMessages throws handlers ps thread_id msgs

/-- The `for await (const chunk of response)` loop over the prefix of
chunks the agent stream yields; an escaped sink exception aborts the
loop. -/
def processChunks (throws : Sink → Bool) (handlers : HandlerMap)
    (ps : ProcState) (thread_id : String) : List Chunk → ProcState × Bool
  | [] => (ps, true)
  | c :: rest =>
      let r := processChunk throws handlers ps thread_id c
      if r.2 then processChunks throws handlers r.1 thread_id rest
      else (r.1, false)

/-- Outcome of one `messageReceived` call as seen by its caller. -/
inductive TurnResult where
  | ok
  | sinkError
  | agentError
deriving DecidableEq, Repr

/-- Source `messageReceived(message, clientConfig)`: drains the agent
stream for `thread_id`.  `chunks` are the snapshots the stream yields
before it either completes (`agentFails = false`) or raises
(`agentFails = true`); a rejection of the stream, like an escaped sink
exception, propagates to the caller of `messageReceived`. -/
def messageReceived (throws : Sink → Bool) (handlers : HandlerMap)
    (ps : ProcState) (thread_id : String) (chunks : List Chunk)
    (agentFails : Bool) : ProcState × TurnResult :=
  let r := processChunks throws handlers ps thread_id chunks
  if r.2 then
    if agentFails then (r.1, .agentError) else (r.1, .ok)
  else (r.1, .sinkError)

/-- The handler behaviour in which no sink throws. -/
def noThrow : Sink → Bool := fun _ => false

/-- Specification helper: the sublist of `msgs` that survives the
seen-set filter when the seen-set starts as `sent` and grows as each
surviving message is marked. -/
def freshMessages (sent : List String) : List Message → List Message
  | [] => []
  | m :: rest =>
      if idKey m ∈ sent then freshMessages sent rest
      else m :: freshMessages (sent ++ [idKey m]) rest

/-- Specification helper: the messages that survive the seen-set filter
across a whole list of chunks, in arrival order. -/
def freshInChunks (sent : List String) : List Chunk → List Message
  | [] => []
  | none :: rest => freshInChunks sent rest
  | some msgs :: rest =>
      freshMessages sent msgs ++
        freshInChunks (sent ++ (freshMessages sent msgs).map idKey) rest

/-- Specification helper: the invocation events of broadcasting each of
`msgs` in turn to the fixed handler list `hs`. -/
def fanOut (hs : List Sink) : List Message → List (Sink × Message)
  | [] => []
  | m :: rest => hs.map (fun h => (h, m)) ++ fanOut hs rest

/-- Occurrences in a log of an invocation of sink `s` with a message
whose dedup key is `k`. -/
def countSK (s : Sink) (k : String) (l : List (Sink × Message)) : Nat :=
  l.countP (fun e => decide (e.1 = s ∧ idKey e.2 = k))

theorem runHandlers_noThrow (hs : List Sink) (msg : Message) :
    runHandlers noThrow hs msg = (hs.map (fun h => (h, msg)), true) := by
  induction hs with
  | nil => rfl
  | cons h rest ih => simp [runHandlers, noThrow, ih]

theorem sendMessageToClients_noThrow_some (handlers : HandlerMap)
    (uuid : String) (msg : Message) (hs : List Sink)
    (hlk : lookupHandlers handlers uuid = some hs) :
    sendMessageToClients noThrow handlers uuid msg =
      (hs.map (fun h => (h, msg)), true) := by
  simp [sendMessageToClients, hlk, runHandlers_noThrow]

theorem sendMessageToClients_noThrow_ok (handlers : HandlerMap)
    (uuid : String) (msg : Message) :
    (sendMessageToClients noThrow handlers uuid msg).2 = true := by
  unfold sendMessageToClients
  cases hlk : lookupHandlers handlers uuid with
  | none => rfl
  | some hs => simp [runHandlers_noThrow]

theorem lookup_setHandlers_self (m : HandlerMap) (uuid : String)
    (hs : List Sink) :
    lookupHandlers (setHandlers m uuid hs) uuid = some hs := by
  induction m with
  | nil => simp [setHandlers, lookupHandlers]
  | cons p rest ih =>
      by_cases hk : p.1 = uuid
      · simp [setHandlers, hk, lookupHandlers]
      · simp [setHandlers, hk, lookupHandlers, ih]

theorem lookup_setHandlers_other (m : HandlerMap) (uuid u : String)
    (hs : List Sink) (hne : u ≠ uuid) :
    lookupHandlers (setHandlers m uuid hs) u = lookupHandlers m u := by
  induction m with
  | nil => simp [setHandlers, lookupHandlers, hne, Ne.symm hne]
  | cons p rest ih =>
      by_cases hk : p.1 = uuid
      · subst hk
        simp [setHandlers, lookupHandlers, hne, Ne.symm hne]
      · simp only [setHandlers, hk, if_false, lookupHandlers]
        by_cases hu : p.1 = u
        · simp [hu]
        · simp [hu, ih]

theorem setHandlers_lookup_self (m : HandlerMap) (uuid : String)
    (hs : List Sink) (hlk : lookupHandlers m uuid = some hs) :
    setHandlers m uuid hs = m := by
  induction m with
  | nil => simp [lookupHandlers] at hlk
  | cons p rest ih =>
      by_cases hk : p.1 = uuid
      · have hv : p.2 = hs := by
          simp [lookupHandlers, hk] at hlk
          exact hlk ▸ rfl
        cases p with
        | mk k v =>
            simp only at hk hv
            subst hk; subst hv
            simp [setHandlers]
      · have hlk' : lookupHandlers rest uuid = some hs := by
          simpa [lookupHandlers, hk] using hlk
        simp [setHandlers, hk, ih hlk']

theorem fanOut_append (hs : List Sink) (a b : List Message) :
    fanOut hs (a ++ b) = fanOut hs a ++ fanOut hs b := by
  induction a with
  | nil => simp [fanOut]
  | cons m rest ih => simp [fanOut, ih]

theorem processMessages_noThrow_spec (handlers : HandlerMap)
    (tid : String) (hs : List Sink)
    (hlk : lookupHandlers handlers tid = some hs) :
    ∀ (msgs : List Message) (ps : ProcState),
    processMessages noThrow handlers ps tid msgs =
      (⟨ps.sentMessages ++ (freshMessages ps.sentMessages msgs).map idKey,
        ps.log ++ fanOut hs (freshMessages ps.sentMessages msgs)⟩, true) := by
  intro msgs
  induction msgs with
  | nil => intro ps; simp [processMessages, freshMessages, fanOut]
  | cons m rest ih =>
      intro ps
      by_cases hmem : idKey m ∈ ps.sentMessages
      · simp [processMessages, hmem, freshMessages, ih]
      · simp only [processMessages, hmem, if_false,
          sendMessageToClients_noThrow_some handlers tid m hs hlk,
          freshMessages, if_neg hmem]
        rw [ih ⟨ps.sentMessages ++ [idKey m], ps.log ++ hs.map (fun h => (h, m))⟩]
        simp [fanOut, List.append_assoc]

theorem processChunks_noThrow_spec (handlers : HandlerMap)
    (tid : String) (hs : List Sink)
    (hlk : lookupHandlers handlers tid = some hs) :
    ∀ (chunks : List Chunk) (ps : ProcState),
    processChunks noThrow handlers ps tid chunks =
      (⟨ps.sentMessages ++ (freshInChunks ps.sentMessages chunks).map idKey,
        ps.log ++ fanOut hs (freshInChunks ps.sentMessages chunks)⟩, true) := by
  intro chunks
  induction chunks with
  | nil => intro ps; simp [processChunks, freshInChunks, fanOut]
  | cons c rest ih =>
      intro ps
      cases c with
      | none => simp [processChunks, processChunk, freshInChunks, ih]
      | some msgs =>
          simp only [processChunks, processChunk,
            processMessages_noThrow_spec handlers tid hs hlk msgs ps, if_true]
          rw [ih]
          simp [freshInChunks, fanOut_append, List.append_assoc]

theorem messageReceived_noThrow_state (handlers : HandlerMap)
    (tid : String) (hs : List Sink) (chunks : List Chunk)
    (ps : ProcState) (agentFails : Bool)
    (hlk : lookupHandlers handlers tid = some hs) :
    (messageReceived noThrow handlers ps tid chunks agentFails).1 =
      ⟨ps.sentMessages ++ (freshInChunks ps.sentMessages chunks).map idKey,
        ps.log ++ fanOut hs (freshInChunks ps.sentMessages chunks)⟩ := by
  simp [messageReceived, processChunks_noThrow_spec handlers tid hs hlk chunks ps]
  cases agentFails <;> rfl

theorem freshMessages_keys (msgs : List Message) :
    ∀ sent : List String,
    ((freshMessages sent msgs).map idKey).Nodup ∧
      ∀ k ∈ (freshMessages sent msgs).map idKey, k ∉ sent := by
  induction msgs with
  | nil => intro sent; simp [freshMessages]
  | cons m rest ih =>
      intro sent
      by_cases hmem : idKey m ∈ sent
      · simpa [freshMessages, hmem] using ih sent
      · have hrest := ih (sent ++ [idKey m])
        constructor
        · simp only [freshMessages, if_neg hmem, List.map_cons, List.nodup_cons]
          refine ⟨fun hk => ?_, hrest.1⟩
          exact (hrest.2 _ hk) (by simp)
        · intro k hk
          simp only [freshMessages, if_neg hmem, List.map_cons,
            List.mem_cons] at hk
          rcases hk with hk | hk
          · exact hk ▸ hmem
          · intro hin
            exact (hrest.2 _ hk) (by simp [hin])

theorem freshInChunks_keys (chunks : List Chunk) :
    ∀ sent : List String,
    ((freshInChunks sent chunks).map idKey).Nodup ∧
      ∀ k ∈ (freshInChunks sent chunks).map idKey, k ∉ sent := by
  induction chunks with
  | nil => intro sent; simp [freshInChunks]
  | cons c rest ih =>
      intro sent
      cases c with
      | none => simpa [freshInChunks] using ih sent
      | some msgs =>
          have h1 := freshMessages_keys msgs sent
          have h2 := ih (sent ++ (freshMessages sent msgs).map idKey)
          constructor
          · simp only [freshInChunks, List.map_append, List.nodup_append]
            refine ⟨h1.1, h2.1, fun k hk hk2 => ?_⟩
            exact (h2.2 _ hk2) (by simp [hk])
          · intro k hk
            simp only [freshInChunks, List.map_append, List.mem_append] at hk
            rcases hk with hk | hk
            · exact h1.2 _ hk
            · intro hin
              exact (h2.2 _ hk) (by simp [hin])

theorem countSK_append (s : Sink) (k : String)
    (l1 l2 : List (Sink × Message)) :
    countSK s k (l1 ++ l2) = countSK s k l1 + countSK s k l2 := by
  simp [countSK, List.countP_append]

theorem countP_self_le_one (s : Sink) (hs : List Sink) (hnd : hs.Nodup) :
    hs.countP (fun h => decide (h = s)) ≤ 1 := by
  induction hs with
  | nil => simp
  | cons a rest ih =>
      rcases List.nodup_cons.mp hnd with ⟨ha, hrest⟩
      by_cases has : a = s
      · subst has
        have hz : rest.countP (fun h => decide (h = a)) = 0 :=
          List.countP_eq_zero.mpr (by
            intro x hx
            simp only [decide_eq_true_eq]
            intro hxa
            exact ha (hxa ▸ hx))
        simp [List.countP_cons, hz]
      · simpa [List.countP_cons, has] using ih hrest

theorem countSK_map_single (s : Sink) (k : String) (hs : List Sink)
    (m : Message) :
    countSK s k (hs.map (fun h => (h, m))) =
      if idKey m = k then hs.countP (fun h => decide (h = s)) else 0 := by
  by_cases hk : idKey m = k
  · simp [countSK, List.countP_map, hk, Function.comp_def]
  · simp [countSK, List.countP_map, hk, Function.comp_def]

theorem countSK_fanOut_zero (s : Sink) (k : String) (hs : List Sink)
    (msgs : List Message) (hk : k ∉ msgs.map idKey) :
    countSK s k (fanOut hs msgs) = 0 := by
  induction msgs with
  | nil => simp [fanOut, countSK]
  | cons m rest ih =>
      simp only [List.map_cons, List.mem_cons, not_or] at hk
      rw [fanOut, countSK_append, countSK_map_single,
        if_neg (fun h => hk.1 h.symm), ih hk.2]

theorem countSK_fanOut_le (s : Sink) (k : String) (hs : List Sink)
    (msgs : List Message) (hkeys : (msgs.map idKey).Nodup)
    (hnd : hs.Nodup) :
    countSK s k (fanOut hs msgs) ≤ 1 := by
  induction msgs with
  | nil => simp [fanOut, countSK]
  | cons m rest ih =>
      simp only [List.map_cons, List.nodup_cons] at hkeys
      obtain ⟨hm, hrest⟩ := hkeys
      rw [fanOut, countSK_append, countSK_map_single]
      by_cases hk : idKey m = k
      · rw [if_pos hk, countSK_fanOut_zero s k hs rest (hk ▸ hm)]
        simpa using countP_self_le_one s hs hnd
      · rw [if_neg hk]
        simpa using ih hrest

theorem sendMessageToClients_noThrow_snd (handlers : HandlerMap)
    (uuid : String) (msg : Message) :
    ∀ e ∈ (sendMessageToClients noThrow handlers uuid msg).1, e.2 = msg := by
  unfold sendMessageToClients
  cases hlk : lookupHandlers handlers uuid with
  | none => simp
  | some hs =>
      simp only [runHandlers_noThrow]
      intro e he
      rcases List.mem_map.mp he with ⟨h, _, rfl⟩
      rfl

theorem processMessages_noThrow_extends (handlers : HandlerMap)
    (tid : String) :
    ∀ (msgs : List Message) (ps : ProcState), ∃ ds dl,
    processMessages noThrow handlers ps tid msgs =
      (⟨ps.sentMessages ++ ds, ps.log ++ dl⟩, true) ∧
      ∀ e ∈ dl, idKey e.2 ∈ ds := by
  intro msgs
  induction msgs with
  | nil =>
      intro ps
      exact ⟨[], [], by simp [processMessages], by simp⟩
  | cons m rest ih =>
      intro ps
      by_cases hmem : idKey m ∈ ps.sentMessages
      · rcases ih ps with ⟨ds, dl, heq, hkey⟩
        exact ⟨ds, dl, by simpa [processMessages, hmem] using heq, hkey⟩
      · rcases ih ⟨ps.sentMessages ++ [idKey m],
            ps.log ++ (sendMessageToClients noThrow handlers tid m).1⟩ with
          ⟨ds, dl, heq, hkey⟩
        refine ⟨[idKey m] ++ ds,
          (sendMessageToClients noThrow handlers tid m).1 ++ dl, ?_, ?_⟩
        · have hok := sendMessageToClients_noThrow_ok handlers tid m
          simp only [processMessages, hmem, if_false, hok, if_true]
          simpa [List.append_assoc] using heq
        · intro e he
          rcases List.mem_append.mp he with he | he
          · have := sendMessageToClients_noThrow_snd handlers tid m e he
            simp [this]
          · simp [hkey e he]

theorem processChunks_noThrow_extends (handlers : HandlerMap)
    (tid : String) :
    ∀ (chunks : List Chunk) (ps : ProcState), ∃ ds dl,
    processChunks noThrow handlers ps tid chunks =
      (⟨ps.sentMessages ++ ds, ps.log ++ dl⟩, true) ∧
      ∀ e ∈ dl, idKey e.2 ∈ ds := by
  intro chunks
  induction chunks with
  | nil =>
      intro ps
      exact ⟨[], [], by simp [processChunks], by simp⟩
  | cons c rest ih =>
      intro ps
      cases c with
      | none =>
          rcases ih ps with ⟨ds, dl, heq, hkey⟩
          exact ⟨ds, dl, by simpa [processChunks, processChunk] using heq, hkey⟩
      | some msgs =>
          rcases processMessages_noThrow_extends handlers tid msgs ps with
            ⟨ds1, dl1, heq1, hkey1⟩
          rcases ih ⟨ps.sentMessages ++ ds1, ps.log ++ dl1⟩ with
            ⟨ds2, dl2, heq2, hkey2⟩
          refine ⟨ds1 ++ ds2, dl1 ++ dl2, ?_, ?_⟩
          · simp only [processChunks, processChunk, heq1, if_true]
            simpa [List.append_assoc] using heq2
          · intro e he
            rcases List.mem_append.mp he with he | he
            · simp [hkey1 e he]
            · simp [hkey2 e he]

theorem processMessages_single_seen (throws : Sink → Bool)
    (handlers : HandlerMap) (ps : ProcState) (tid : String) (m : Message)
    (hmem : idKey m ∈ ps.sentMessages) :
    processMessages throws handlers ps tid [m] = (ps, true) := by
  simp [processMessages, hmem]

theorem processMessages_single_fresh (handlers : HandlerMap)
    (ps : ProcState) (tid : String) (m : Message)
    (hfresh : idKey m ∉ ps.sentMessages) :
    processMessages noThrow handlers ps tid [m] =
      (⟨ps.sentMessages ++ [idKey m],
        ps.log ++ (sendMessageToClients noThrow handlers tid m).1⟩, true) := by
  simp [processMessages, hfresh, sendMessageToClients_noThrow_ok]

theorem messageReceived_single (throws : Sink → Bool) (handlers : HandlerMap)
    (ps : ProcState) (tid : String) (m : Message)
    (hok : (processMessages throws handlers ps tid [m]).2 = true) :
    messageReceived throws handlers ps tid [some [m]] false =
      ((processMessages throws handlers ps tid [m]).1, TurnResult.ok) := by
  simp [messageReceived, processChunks, processChunk, hok]

/-- C6: unsubscribing from a thread with no subscription list, or with a
handler not (or no longer) in the thread's list — including a second
call with the same handler — leaves the map unchanged (no-op, and being
a total function it raises nothing). -/
theorem unregister_idempotent_noop (m : HandlerMap) (uuid : String)
    (handler : Sink) :
    (lookupHandlers m uuid = none →
      unregisterNewMessageHandler m uuid handler = m) ∧
    (∀ hs, lookupHandlers m uuid = some hs → handler ∉ hs →
      unregisterNewMessageHandler m uuid handler = m) ∧
    unregisterNewMessageHandler
        (unregisterNewMessageHandler m uuid handler) uuid handler =
      unregisterNewMessageHandler m uuid handler := by
  refine ⟨fun h => by simp [unregisterNewMessageHandler, h], ?_, ?_⟩
  · intro hs hlk hnot
    have hfil : hs.filter (fun h => h ≠ handler) = hs := by
      apply List.filter_eq_self.mpr
      intro a ha
      have hne : a ≠ handler := fun heq => hnot (heq ▸ ha)
      simp [hne]
    unfold unregisterNewMessageHandler
    rw [hlk]
    show setHandlers m uuid (hs.filter (fun h => h ≠ handler)) = m
    rw [hfil]
    exact setHandlers_lookup_self m uuid hs hlk
  · cases hlk : lookupHandlers m uuid with
    | none =>
        have h0 : unregisterNewMessageHandler m uuid handler = m := by
          unfold unregisterNewMessageHandler
          rw [hlk]
        simp only [h0]
    | some hs =>
        have h1 : unregisterNewMessageHandler m uuid handler =
            setHandlers m uuid (hs.filter (fun h => h ≠ handler)) := by
          unfold unregisterNewMessageHandler
          rw [hlk]
        have hlk2 : lookupHandlers
            (setHandlers m uuid (hs.filter (fun h => h ≠ handler))) uuid =
            some (hs.filter (fun h => h ≠ handler)) :=
          lookup_setHandlers_self m uuid _
        have hfil : (hs.filter (fun h => h ≠ handler)).filter
            (fun h => h ≠ handler) = hs.filter (fun h => h ≠ handler) :=
          List.filter_eq_self.mpr (fun a ha => (List.mem_filter.mp ha).2)
        rw [h1]
        unfold unregisterNewMessageHandler
        rw [hlk2]
        show setHandlers (setHandlers m uuid (hs.filter (fun h => h ≠ handler)))
            uuid ((hs.filter (fun h => h ≠ handler)).filter
              (fun h => h ≠ handler)) =
          setHandlers m uuid (hs.filter (fun h => h ≠ handler))
        rw [hfil]
        exact setHandlers_lookup_self _ uuid _ hlk2

/-- C7: when the thread's list is present, unsubscribing a handle
replaces the list by its filtered version: every occurrence of the
handle is gone, every other sink keeps its multiplicity and its original
order, and no other thread's list changes. -/
theorem unregister_removes_exactly_handle (m : HandlerMap) (uuid : String)
    (handler : Sink) (hs : List Sink)
    (hlk : lookupHandlers m uuid = some hs) (hmem : handler ∈ hs) :
    lookupHandlers (unregisterNewMessageHandler m uuid handler) uuid =
      some (hs.filter (fun h => h ≠ handler)) ∧
    handler ∉ hs.filter (fun h => h ≠ handler) ∧
    (∀ g, g ≠ handler →
      (hs.filter (fun h => h ≠ handler)).count g = hs.count g) ∧
    (hs.filter (fun h => h ≠ handler)).Sublist hs ∧
    (∀ u, u ≠ uuid →
      lookupHandlers (unregisterNewMessageHandler m uuid handler) u =
        lookupHandlers m u) := by
  refine ⟨?_, ?_, ?_, ?_, ?_⟩
  · simp [unregisterNewMessageHandler, hlk, lookup_setHandlers_self]
  · simp [List.mem_filter]
  · intro g hg
    exact List.count_filter (by simpa using hg)
  · exact List.filter_sublist hs
  · intro u hu
    simp [unregisterNewMessageHandler, hlk,
      lookup_setHandlers_other m uuid u _ hu]

/-- C8: unsubscribing the last sink keeps the thread's (now empty)
entry; a later subscribe on the same thread yields the one-element list
and that new sink receives a subsequently dispatched fresh message;
subscribe and unsubscribe never touch another thread's entry. -/
theorem empty_thread_entry_retained_resubscribe (m : HandlerMap)
    (tid : String) (s s' : Sink) (ps : ProcState) (msg : Message)
    (hlk : lookupHandlers m tid = some [s])
    (hfresh : idKey msg ∉ ps.sentMessages) :
    lookupHandlers (unregisterNewMessageHandler m tid s) tid = some [] ∧
    lookupHandlers
        (registerNewMessageHandler (unregisterNewMessageHandler m tid s) s' tid)
        tid = some [s'] ∧
    (processMessages noThrow
        (registerNewMessageHandler (unregisterNewMessageHandler m tid s) s' tid)
        ps tid [msg]).1.log = ps.log ++ [(s', msg)] ∧
    (∀ (mm : HandlerMap) (h : Sink) (uuid u : String), u ≠ uuid →
      lookupHandlers (registerNewMessageHandler mm h uuid) u =
          lookupHandlers mm u ∧
        lookupHandlers (unregisterNewMessageHandler mm uuid h) u =
          lookupHandlers mm u) := by
  have h1 : lookupHandlers (unregisterNewMessageHandler m tid s) tid =
      some [] := by
    simp [unregisterNewMessageHandler, hlk, lookup_setHandlers_self]
  have h2 : lookupHandlers
      (registerNewMessageHandler (unregisterNewMessageHandler m tid s) s' tid)
      tid = some [s'] := by
    simp [registerNewMessageHandler, h1, lookup_setHandlers_self]
  refine ⟨h1, h2, ?_, ?_⟩
  · rw [processMessages_single_fresh _ ps tid msg hfresh]
    simp [sendMessageToClients_noThrow_some _ tid msg [s'] h2]
  · intro mm h uuid u hu
    constructor
    · simp [registerNewMessageHandler, lookup_setHandlers_other mm uuid u _ hu]
    · cases hlkm : lookupHandlers mm uuid with
      | none => simp [unregisterNewMessageHandler, hlkm]
      | some hsm =>
          simp [unregisterNewMessageHandler, hlkm,
            lookup_setHandlers_other mm uuid u _ hu]

/-- C1: with one subscribed sink and an agent yielding the cumulative
snapshots of m1, then m1 m2, then m1 m2 m3, with pairwise distinct and
not-yet-seen dedup keys, the sink receives exactly m1, m2, m3 in that
order and each key is recorded once. -/
theorem snapshot_dedup_delivery (handlers : HandlerMap) (ps : ProcState)
    (tid : String) (s : Sink) (m1 m2 m3 : Message)
    (hlk : lookupHandlers handlers tid = some [s])
    (h12 : idKey m1 ≠ idKey m2) (h13 : idKey m1 ≠ idKey m3)
    (h23 : idKey m2 ≠ idKey m3)
    (hf1 : idKey m1 ∉ ps.sentMessages) (hf2 : idKey m2 ∉ ps.sentMessages)
    (hf3 : idKey m3 ∉ ps.sentMessages) :
    messageReceived noThrow handlers ps tid
        [some [m1], some [m1, m2], some [m1, m2, m3]] false =
      (⟨ps.sentMessages ++ [idKey m1, idKey m2, idKey m3],
        ps.log ++ [(s, m1), (s, m2), (s, m3)]⟩, TurnResult.ok) := by
  have hstate := processChunks_noThrow_spec handlers tid [s] hlk
    [some [m1], some [m1, m2], some [m1, m2, m3]] ps
  have hfresh : freshInChunks ps.sentMessages
      [some [m1], some [m1, m2], some [m1, m2, m3]] = [m1, m2, m3] := by
    simp [freshInChunks, freshMessages, hf1, hf2, hf3,
      Ne.symm h12, Ne.symm h13, Ne.symm h23, h12, h13, h23]
  rw [hfresh] at hstate
  simp only [messageReceived, hstate, if_true]
  simp [fanOut]

/-- C4: the seen-set is shared across threads (it is a module-global in
the source, so also across Agent instances, modelled by the two
independent handler maps h1 and h2): after a submit on t1 delivers a
message, a submit on t2 with a message carrying the same id changes
nothing — no sink of t2 receives it. -/
theorem seen_set_global_across_threads (h1 h2 : HandlerMap) (ps : ProcState)
    (t1 t2 : String) (hs1 : List Sink) (m1 m2 : Message)
    (hne : t1 ≠ t2)
    (hlk1 : lookupHandlers h1 t1 = some hs1)
    (hf : idKey m1 ∉ ps.sentMessages)
    (hkey : idKey m2 = idKey m1) :
    (messageReceived noThrow h1 ps t1 [some [m1]] false).1.log =
      ps.log ++ hs1.map (fun h => (h, m1)) ∧
    idKey m1 ∈ (messageReceived noThrow h1 ps t1 [some [m1]] false).1.sentMessages ∧
    messageReceived noThrow h2
        (messageReceived noThrow h1 ps t1 [some [m1]] false).1 t2
        [some [m2]] false =
      ((messageReceived noThrow h1 ps t1 [some [m1]] false).1,
        TurnResult.ok) := by
  have hp1 := processMessages_single_fresh h1 ps t1 m1 hf
  have hrun1 : messageReceived noThrow h1 ps t1 [some [m1]] false =
      (⟨ps.sentMessages ++ [idKey m1],
        ps.log ++ (sendMessageToClients noThrow h1 t1 m1).1⟩,
        TurnResult.ok) := by
    rw [messageReceived_single noThrow h1 ps t1 m1 (by rw [hp1]), hp1]
  have hsend := sendMessageToClients_noThrow_some h1 t1 m1 hs1 hlk1
  refine ⟨?_, ?_, ?_⟩
  · rw [hrun1, hsend]
  · rw [hrun1]; simp
  · have hmem2 : idKey m2 ∈
        (messageReceived noThrow h1 ps t1 [some [m1]] false).1.sentMessages := by
      rw [hrun1, hkey]; simp
    have hp2 := processMessages_single_seen noThrow h2
      (messageReceived noThrow h1 ps t1 [some [m1]] false).1 t2 m2 hmem2
    rw [messageReceived_single noThrow h2 _ t2 m2 (by rw [hp2]), hp2]

/-- C9: within one messageReceived call on a thread whose handler list
is hs, the log grows by exactly the fan-out of the surviving (not yet
seen) messages in arrival order: snapshots in stream order, messages in
snapshot order within each snapshot, and for each message the sinks of
hs in registration order — hence per-sink FIFO delivery. -/
theorem delivery_order_within_turn (handlers : HandlerMap) (ps : ProcState)
    (tid : String) (hs : List Sink) (chunks : List Chunk)
    (agentFails : Bool)
    (hlk : lookupHandlers handlers tid = some hs) :
    (messageReceived noThrow handlers ps tid chunks agentFails).1.log =
      ps.log ++ fanOut hs (freshInChunks ps.sentMessages chunks) := by
  rw [messageReceived_noThrow_state handlers tid hs chunks ps agentFails hlk]

/-- C10: the dedup key is the string interpolation of the id, so every
id-less message keys to "undefined"; once one id-less message has been
processed on any thread, a later id-less message on any other thread
(and any other instance's handler map) is suppressed: the state does not
change and no sink receives it. -/
theorem idless_messages_share_undefined_key :
    (∀ m : Message, m.id = none → idKey m = "undefined") ∧
    (∀ (h1 h2 : HandlerMap) (ps : ProcState) (t1 t2 : String)
      (m1 m2 : Message),
      m1.id = none → m2.id = none → "undefined" ∉ ps.sentMessages →
      messageReceived noThrow h2
          (messageReceived noThrow h1 ps t1 [some [m1]] false).1 t2
          [some [m2]] false =
        ((messageReceived noThrow h1 ps t1 [some [m1]] false).1,
          TurnResult.ok)) := by
  constructor
  · intro m hid
    simp [idKey, hid]
  · intro h1 h2 ps t1 t2 m1 m2 hid1 hid2 hfresh
    have hk1 : idKey m1 = "undefined" := by simp [idKey, hid1]
    have hk2 : idKey m2 = "undefined" := by simp [idKey, hid2]
    have hf1 : idKey m1 ∉ ps.sentMessages := by rw [hk1]; exact hfresh
    have hp1 := processMessages_single_fresh h1 ps t1 m1 hf1
    have hrun1 : messageReceived noThrow h1 ps t1 [some [m1]] false =
        (⟨ps.sentMessages ++ [idKey m1],
          ps.log ++ (sendMessageToClients noThrow h1 t1 m1).1⟩,
          TurnResult.ok) := by
      rw [messageReceived_single noThrow h1 ps t1 m1 (by rw [hp1]), hp1]
    have hmem2 : idKey m2 ∈
        (messageReceived noThrow h1 ps t1 [some [m1]] false).1.sentMessages := by
      rw [hrun1, hk2, hk1]; simp
    have hp2 := processMessages_single_seen noThrow h2
      (messageReceived noThrow h1 ps t1 [some [m1]] false).1 t2 m2 hmem2
    rw [messageReceived_single noThrow h2 _ t2 m2 (by rw [hp2]), hp2]

/-- C5: when the agent stream raises after yielding some chunks, the
error surfaces to the caller of messageReceived, the state is exactly
the state of the non-failing run over the same yielded chunks (nothing
further is delivered), already delivered messages stay in the log, and
every delivered message's key stays recorded in the seen-set. -/
theorem agent_failure_propagates_no_rollback (handlers : HandlerMap)
    (ps : ProcState) (tid : String) (chunks : List Chunk)
    (hInv : ∀ e ∈ ps.log, idKey e.2 ∈ ps.sentMessages) :
    (messageReceived noThrow handlers ps tid chunks true).2 =
      TurnResult.agentError ∧
    (messageReceived noThrow handlers ps tid chunks true).1 =
      (messageReceived noThrow handlers ps tid chunks false).1 ∧
    (∃ dl, (messageReceived noThrow handlers ps tid chunks true).1.log =
      ps.log ++ dl) ∧
    (∃ ds, (messageReceived noThrow handlers ps tid chunks true).1.sentMessages =
      ps.sentMessages ++ ds) ∧
    (∀ e ∈ (messageReceived noThrow handlers ps tid chunks true).1.log,
      idKey e.2 ∈
        (messageReceived noThrow handlers ps tid chunks true).1.sentMessages) := by
  rcases processChunks_noThrow_extends handlers tid chunks ps with
    ⟨ds, dl, heq, hkey⟩
  have h1 : messageReceived noThrow handlers ps tid chunks true =
      (⟨ps.sentMessages ++ ds, ps.log ++ dl⟩, TurnResult.agentError) := by
    simp [messageReceived, heq]
  have h2 : messageReceived noThrow handlers ps tid chunks false =
      (⟨ps.sentMessages ++ ds, ps.log ++ dl⟩, TurnResult.ok) := by
    simp [messageReceived, heq]
  refine ⟨by rw [h1], by rw [h1, h2], ⟨dl, by rw [h1]⟩, ⟨ds, by rw [h1]⟩, ?_⟩
  rw [h1]
  intro e he
  rcases List.mem_append.mp he with he | he
  · exact List.mem_append.mpr (Or.inl (hInv e he))
  · exact List.mem_append.mpr (Or.inr (hkey e he))

/-- C2 counterexample: the same handler reference registered twice for
one thread is invoked twice for a single fresh message, so a message
can be delivered twice to the same sink instance while it is
subscribed. -/
theorem duplicate_registration_double_delivery :
    (messageReceived noThrow
        (registerNewMessageHandler (registerNewMessageHandler [] 0 "t") 0 "t")
        ⟨[], []⟩ "t" [some [Message.mk (some "a") "x"]] false).1.log =
      [(0, Message.mk (some "a") "x"), (0, Message.mk (some "a") "x")] ∧
    countSK 0 "a"
      (messageReceived noThrow
        (registerNewMessageHandler (registerNewMessageHandler [] 0 "t") 0 "t")
        ⟨[], []⟩ "t" [some [Message.mk (some "a") "x"]] false).1.log = 2 := by
  constructor <;> rfl

/-- C2 amended: for a message not yet seen, the dispatch delivers to
exactly the entries of the thread's handler list at the moment the
broadcast runs (so a sink not in the list — registered later or removed
earlier — receives nothing), and provided no handler is registered
twice for the thread, no run of messageReceived delivers the same
message key twice to the same sink. -/
theorem dispatch_set_and_at_most_once :
    (∀ (handlers : HandlerMap) (ps : ProcState) (tid : String)
      (msg : Message) (hs : List Sink),
      lookupHandlers handlers tid = some hs → idKey msg ∉ ps.sentMessages →
      (processMessages noThrow handlers ps tid [msg]).1.log =
        ps.log ++ hs.map (fun h => (h, msg))) ∧
    (∀ (handlers : HandlerMap) (ps : ProcState) (tid : String)
      (msg : Message) (hs : List Sink) (s : Sink),
      lookupHandlers handlers tid = some hs → idKey msg ∉ ps.sentMessages →
      s ∉ hs →
      ∀ e ∈ (processMessages noThrow handlers ps tid [msg]).1.log,
        e ∈ ps.log ∨ e.1 ≠ s) ∧
    (∀ (handlers : HandlerMap) (ps : ProcState) (tid : String)
      (chunks : List Chunk) (agentFails : Bool) (hs : List Sink)
      (s : Sink) (k : String),
      lookupHandlers handlers tid = some hs → hs.Nodup → ps.log = [] →
      countSK s k
        (messageReceived noThrow handlers ps tid chunks agentFails).1.log ≤ 1) := by
  have hone : ∀ (handlers : HandlerMap) (ps : ProcState) (tid : String)
      (msg : Message) (hs : List Sink),
      lookupHandlers handlers tid = some hs → idKey msg ∉ ps.sentMessages →
      (processMessages noThrow handlers ps tid [msg]).1.log =
        ps.log ++ hs.map (fun h => (h, msg)) := by
    intro handlers ps tid msg hs hlk hfresh
    rw [processMessages_single_fresh handlers ps tid msg hfresh]
    rw [sendMessageToClients_noThrow_some handlers tid msg hs hlk]
  refine ⟨hone, ?_, ?_⟩
  · intro handlers ps tid msg hs s hlk hfresh hnot e he
    rw [hone handlers ps tid msg hs hlk hfresh] at he
    rcases List.mem_append.mp he with he | he
    · exact Or.inl he
    · rcases List.mem_map.mp he with ⟨h, hh, rfl⟩
      exact Or.inr (fun heq => hnot (heq ▸ hh))
  · intro handlers ps tid chunks agentFails hs s k hlk hnd hlog
    rw [messageReceived_noThrow_state handlers tid hs chunks ps agentFails hlk]
    simp only [hlog, List.nil_append]
    exact countSK_fanOut_le s k hs _ (freshInChunks_keys chunks ps.sentMessages).1
      hnd

/-- C3 counterexample: with handlers 1 and 2 subscribed to thread t and
handler 1 throwing, a fresh message is never handed to handler 2 and
the failure escapes messageReceived as a sink error — the claimed
isolation does not hold in the source. -/
theorem throwing_sink_blocks_later_sinks :
    (messageReceived (fun s => decide (s = 1)) [("t", [1, 2])] ⟨[], []⟩ "t"
        [some [Message.mk (some "a") "hi"]] false).2 = TurnResult.sinkError ∧
    (2, Message.mk (some "a") "hi") ∉
      (messageReceived (fun s => decide (s = 1)) [("t", [1, 2])] ⟨[], []⟩ "t"
        [some [Message.mk (some "a") "hi"]] false).1.log := by
  constructor
  · rfl
  · decide

theorem runHandlers_throw_decomp (throws : Sink → Bool) (msg : Message)
    (post : List Sink) (b : Sink) (hb : throws b = true) :
    ∀ pre : List Sink, (∀ s ∈ pre, throws s = false) →
    runHandlers throws (pre ++ b :: post) msg =
      (pre.map (fun h => (h, msg)) ++ [(b, msg)], false) := by
  intro pre
  induction pre with
  | nil => intro _; simp [runHandlers, hb]
  | cons a rest ih =>
      intro hpre
      have ha : throws a = false := hpre a (by simp)
      have hrest : ∀ s ∈ rest, throws s = false :=
        fun s hsm => hpre s (by simp [hsm])
      simp [runHandlers, ha, ih hrest]

/-- C3 amended: when the thread's handler list is pre, then a throwing
handler b, then post, delivery of a fresh message reaches the handlers
of pre in order, invokes b (which throws), never reaches post, leaves
the message unrecorded in the seen-set, and aborts the turn with the
error escaping to the caller of messageReceived. -/
theorem sink_throw_aborts_broadcast (throws : Sink → Bool)
    (handlers : HandlerMap) (ps : ProcState) (tid : String) (msg : Message)
    (pre post : List Sink) (b : Sink) (agentFails : Bool)
    (hlk : lookupHandlers handlers tid = some (pre ++ b :: post))
    (hpre : ∀ s ∈ pre, throws s = false) (hb : throws b = true)
    (hfresh : idKey msg ∉ ps.sentMessages) :
    messageReceived throws handlers ps tid [some [msg]] agentFails =
      (⟨ps.sentMessages,
        ps.log ++ pre.map (fun h => (h, msg)) ++ [(b, msg)]⟩,
        TurnResult.sinkError) := by
  have hsend : sendMessageToClients throws handlers tid msg =
      (pre.map (fun h => (h, msg)) ++ [(b, msg)], false) := by
    simp [sendMessageToClients, hlk,
      runHandlers_throw_decomp throws msg post b hb pre hpre]
  have hproc : processMessages throws handlers ps tid [msg] =
      (⟨ps.sentMessages,
        ps.log ++ (pre.map (fun h => (h, msg)) ++ [(b, msg)])⟩, false) := by
    simp [processMessages, hfresh, hsend]
  simp [messageReceived, processChunks, processChunk, hproc,
    List.append_assoc]

theorem snapshot_dedup_delivery_witness :
    lookupHandlers [("t1", [7])] "t1" = some [7] ∧
    messageReceived noThrow [("t1", [7])] ⟨[], []⟩ "t1"
        [some [Message.mk (some "a") "1"],
          some [Message.mk (some "a") "1", Message.mk (some "b") "2"],
          some [Message.mk (some "a") "1", Message.mk (some "b") "2",
            Message.mk (some "c") "3"]] false =
      (⟨["a", "b", "c"],
        [(7, Message.mk (some "a") "1"), (7, Message.mk (some "b") "2"),
          (7, Message.mk (some "c") "3")]⟩, TurnResult.ok) :=
  ⟨by decide,
    snapshot_dedup_delivery [("t1", [7])] ⟨[], []⟩ "t1" 7
      (Message.mk (some "a") "1") (Message.mk (some "b") "2")
      (Message.mk (some "c") "3") (by decide) (by decide) (by decide)
      (by decide) (by decide) (by decide) (by decide)⟩

theorem dispatch_set_and_at_most_once_witness :
    lookupHandlers [("t1", [4, 5])] "t1" = some [4, 5] ∧
    idKey (Message.mk (some "a") "1") ∉ ([] : List String) ∧
    (processMessages noThrow [("t1", [4, 5])] ⟨[], []⟩ "t1"
        [Message.mk (some "a") "1"]).1.log =
      [] ++ ([4, 5] : List Sink).map
        (fun h => (h, Message.mk (some "a") "1")) ∧
    ((4, Message.mk (some "a") "1") ∈ ([] : List (Sink × Message)) ∨
      ((4 : Sink), Message.mk (some "a") "1").1 ≠ (9 : Sink)) ∧
    countSK 4 "a"
      (messageReceived noThrow [("t1", [4, 5])] ⟨[], []⟩ "t1"
        [some [Message.mk (some "a") "1"]] false).1.log ≤ 1 :=
  ⟨by decide, by decide,
    dispatch_set_and_at_most_once.1 [("t1", [4, 5])] ⟨[], []⟩ "t1"
      (Message.mk (some "a") "1") [4, 5] (by decide) (by decide),
    dispatch_set_and_at_most_once.2.1 [("t1", [4, 5])] ⟨[], []⟩ "t1"
      (Message.mk (some "a") "1") [4, 5] 9 (by decide) (by decide) (by decide)
      (4, Message.mk (some "a") "1") (by decide),
    dispatch_set_and_at_most_once.2.2 [("t1", [4, 5])] ⟨[], []⟩ "t1"
      [some [Message.mk (some "a") "1"]] false [4, 5] 4 "a" (by decide)
      (by decide) (by decide)⟩

theorem sink_throw_aborts_broadcast_witness :
    lookupHandlers [("t", [0, 1, 2])] "t" = some ([0] ++ 1 :: [2]) ∧
    (∀ s ∈ ([0] : List Sink), (fun s => decide (s = 1)) s = false) ∧
    (fun s => decide (s = 1)) 1 = true ∧
    messageReceived (fun s => decide (s = 1)) [("t", [0, 1, 2])] ⟨[], []⟩
        "t" [some [Message.mk (some "a") "hi"]] false =
      (⟨[], [] ++ ([0] : List Sink).map
          (fun h => (h, Message.mk (some "a") "hi")) ++
          [(1, Message.mk (some "a") "hi")]⟩, TurnResult.sinkError) :=
  ⟨by decide, by decide, by decide,
    sink_throw_aborts_broadcast (fun s => decide (s = 1)) [("t", [0, 1, 2])]
      ⟨[], []⟩ "t" (Message.mk (some "a") "hi") [0] [2] 1 false (by decide)
      (by decide) (by decide) (by decide)⟩

theorem seen_set_global_across_threads_witness :
    ("t1" : String) ≠ "t2" ∧
    lookupHandlers [("t1", [3])] "t1" = some [3] ∧
    (messageReceived noThrow [("t1", [3])] ⟨[], []⟩ "t1"
        [some [Message.mk (some "a") "1"]] false).1.log =
      [] ++ ([3] : List Sink).map (fun h => (h, Message.mk (some "a") "1")) ∧
    idKey (Message.mk (some "a") "1") ∈
      (messageReceived noThrow [("t1", [3])] ⟨[], []⟩ "t1"
        [some [Message.mk (some "a") "1"]] false).1.sentMessages ∧
    messageReceived noThrow [("t2", [4])]
        (messageReceived noThrow [("t1", [3])] ⟨[], []⟩ "t1"
          [some [Message.mk (some "a") "1"]] false).1 "t2"
        [some [Message.mk (some "a") "2"]] false =
      ((messageReceived noThrow [("t1", [3])] ⟨[], []⟩ "t1"
          [some [Message.mk (some "a") "1"]] false).1, TurnResult.ok) := by
  have h := seen_set_global_across_threads [("t1", [3])] [("t2", [4])]
    ⟨[], []⟩ "t1" "t2" [3] (Message.mk (some "a") "1")
    (Message.mk (some "a") "2") (by decide) (by decide) (by decide)
    (by decide)
  exact ⟨by decide, by decide, h.1, h.2.1, h.2.2⟩

theorem agent_failure_propagates_no_rollback_witness :
    (∀ e ∈ (⟨[], []⟩ : ProcState).log,
      idKey e.2 ∈ (⟨[], []⟩ : ProcState).sentMessages) ∧
    (messageReceived noThrow [("t", [0])] ⟨[], []⟩ "t"
        [some [Message.mk (some "a") "1"]] true).2 = TurnResult.agentError ∧
    (messageReceived noThrow [("t", [0])] ⟨[], []⟩ "t"
        [some [Message.mk (some "a") "1"]] true).1 =
      (messageReceived noThrow [("t", [0])] ⟨[], []⟩ "t"
        [some [Message.mk (some "a") "1"]] false).1 ∧
    (∃ dl, (messageReceived noThrow [("t", [0])] ⟨[], []⟩ "t"
        [some [Message.mk (some "a") "1"]] true).1.log =
      (⟨[], []⟩ : ProcState).log ++ dl) ∧
    (∃ ds, (messageReceived noThrow [("t", [0])] ⟨[], []⟩ "t"
        [some [Message.mk (some "a") "1"]] true).1.sentMessages =
      (⟨[], []⟩ : ProcState).sentMessages ++ ds) ∧
    (∀ e ∈ (messageReceived noThrow [("t", [0])] ⟨[], []⟩ "t"
        [some [Message.mk (some "a") "1"]] true).1.log,
      idKey e.2 ∈ (messageReceived noThrow [("t", [0])] ⟨[], []⟩ "t"
        [some [Message.mk (some "a") "1"]] true).1.sentMessages) := by
  have h := agent_failure_propagates_no_rollback [("t", [0])] ⟨[], []⟩ "t"
    [some [Message.mk (some "a") "1"]] (by simp)
  exact ⟨by simp, h.1, h.2.1, h.2.2.1, h.2.2.2.1, h.2.2.2.2⟩

theorem unregister_idempotent_noop_witness :
    lookupHandlers [("t", [5])] "u" = none ∧
    unregisterNewMessageHandler [("t", [5])] "u" 5 = [("t", [5])] ∧
    lookupHandlers [("t", [5])] "t" = some [5] ∧ (7 : Sink) ∉ ([5] : List Sink) ∧
    unregisterNewMessageHandler [("t", [5])] "t" 7 = [("t", [5])] ∧
    unregisterNewMessageHandler
        (unregisterNewMessageHandler [("t", [5])] "t" 5) "t" 5 =
      unregisterNewMessageHandler [("t", [5])] "t" 5 :=
  ⟨by decide, (unregister_idempotent_noop [("t", [5])] "u" 5).1 (by decide),
    by decide, by decide,
    (unregister_idempotent_noop [("t", [5])] "t" 7).2.1 [5] (by decide)
      (by decide),
    (unregister_idempotent_noop [("t", [5])] "t" 5).2.2⟩

theorem unregister_removes_exactly_handle_witness :
    lookupHandlers [("t", [1, 2, 1, 3])] "t" = some [1, 2, 1, 3] ∧
    (1 : Sink) ∈ ([1, 2, 1, 3] : List Sink) ∧
    lookupHandlers (unregisterNewMessageHandler [("t", [1, 2, 1, 3])] "t" 1)
        "t" = some (([1, 2, 1, 3] : List Sink).filter (fun h => h ≠ 1)) ∧
    (1 : Sink) ∉ ([1, 2, 1, 3] : List Sink).filter (fun h => h ≠ 1) ∧
    (∀ g, g ≠ (1 : Sink) →
      (([1, 2, 1, 3] : List Sink).filter (fun h => h ≠ 1)).count g =
        ([1, 2, 1, 3] : List Sink).count g) ∧
    (([1, 2, 1, 3] : List Sink).filter (fun h => h ≠ 1)).Sublist
      ([1, 2, 1, 3] : List Sink) ∧
    (∀ u, u ≠ "t" →
      lookupHandlers (unregisterNewMessageHandler [("t", [1, 2, 1, 3])] "t" 1)
          u = lookupHandlers [("t", [1, 2, 1, 3])] u) := by
  have h := unregister_removes_exactly_handle [("t", [1, 2, 1, 3])] "t" 1
    [1, 2, 1, 3] (by decide) (by decide)
  exact ⟨by decide, by decide, h.1, h.2.1, h.2.2.1, h.2.2.2.1, h.2.2.2.2⟩

theorem empty_thread_entry_retained_resubscribe_witness :
    lookupHandlers [("t1", [3]), ("t2", [9])] "t1" = some [3] ∧
    idKey (Message.mk (some "a") "1") ∉ ([] : List String) ∧
    lookupHandlers
        (unregisterNewMessageHandler [("t1", [3]), ("t2", [9])] "t1" 3)
        "t1" = some [] ∧
    lookupHandlers
        (registerNewMessageHandler
          (unregisterNewMessageHandler [("t1", [3]), ("t2", [9])] "t1" 3)
          8 "t1") "t1" = some [8] ∧
    (processMessages noThrow
        (registerNewMessageHandler
          (unregisterNewMessageHandler [("t1", [3]), ("t2", [9])] "t1" 3)
          8 "t1") ⟨[], []⟩ "t1" [Message.mk (some "a") "1"]).1.log =
      [] ++ [(8, Message.mk (some "a") "1")] := by
  have h := empty_thread_entry_retained_resubscribe
    [("t1", [3]), ("t2", [9])] "t1" 3 8 ⟨[], []⟩
    (Message.mk (some "a") "1") (by decide) (by decide)
  exact ⟨by decide, by decide, h.1, h.2.1, h.2.2.1⟩

theorem delivery_order_within_turn_witness :
    lookupHandlers [("t", [0, 1])] "t" = some [0, 1] ∧
    (messageReceived noThrow [("t", [0, 1])] ⟨[], []⟩ "t"
        [some [Message.mk (some "a") "1"],
          some [Message.mk (some "a") "1", Message.mk (some "b") "2"]]
        false).1.log =
      [] ++ fanOut [0, 1]
        (freshInChunks []
          [some [Message.mk (some "a") "1"],
            some [Message.mk (some "a") "1", Message.mk (some "b") "2"]]) :=
  ⟨by decide,
    delivery_order_within_turn [("t", [0, 1])] ⟨[], []⟩ "t" [0, 1]
      [some [Message.mk (some "a") "1"],
        some [Message.mk (some "a") "1", Message.mk (some "b") "2"]] false
      (by decide)⟩

theorem idless_messages_share_undefined_key_witness :
    (Message.mk none "x").id = none ∧
    idKey (Message.mk none "x") = "undefined" ∧
    messageReceived noThrow [("t2", [1])]
        (messageReceived noThrow [("t1", [0])] ⟨[], []⟩ "t1"
          [some [Message.mk none "x"]] false).1 "t2"
        [some [Message.mk none "y"]] false =
      ((messageReceived noThrow [("t1", [0])] ⟨[], []⟩ "t1"
          [some [Message.mk none "x"]] false).1, TurnResult.ok) :=
  ⟨rfl, idless_messages_share_undefined_key.1 (Message.mk none "x") rfl,
    idless_messages_share_undefined_key.2 [("t1", [0])] [("t2", [1])]
      ⟨[], []⟩ "t1" "t2" (Message.mk none "x") (Message.mk none "y") rfl rfl
      (by decide)⟩

end Dispatch
